import Mathlib

/-!
Verification of the TEA-Tool: the interactive menu layer
(`src/tea/ui/menus.py`) embedded from the source, and the exposure
aggregation / store semantics described in the project's design document
for the scan modules that the menu calls into.
-/

namespace TEA

/-! ### Menu layer, embedded from `src/tea/ui/menus.py` -/

/-- The observable side effects the menu can trigger.  Each constructor
records one call site in `menu_screen`, with exactly the arguments the
Python code passes there:
* `scanDiscovery` — `scan.discovery(domain=..., country_codes=..., save=...)`;
* `scanFullDomain` — `scan.full(domain=..., country_codes=..., save=...)`;
* `scanFullExisting` — `scan.full(use_existing=..., save=...)`;
* `scheduleDiscovery` — `ui.schedule_scan_menu(scan_type="discovery", ...)`;
* `scheduleFull` — `ui.schedule_scan_menu(scan_type="full", ...)`;
* `viewExposure` — `ui.view_exposure()`;
* `helpScreen` — `help_screen()`. -/
inductive Action where
  | scanDiscovery (domain : String) (countryCodes : List String) (save : Bool)
  | scanFullDomain (domain : String) (countryCodes : List String) (save : Bool)
  | scanFullExisting (useExisting : Bool) (save : Bool)
  | scheduleDiscovery (domain : String) (countryCodes : List String) (save : Bool)
  | scheduleFull (domain : Option String) (countryCodes : List String)
      (useExisting : Bool) (save : Bool)
  | viewExposure
  | helpScreen
  deriving DecidableEq, Repr

/-- Result of `ui.discovery_scan_menu()`: `(domain, country_codes, save)`.
A cancelled menu yields a falsy domain, modelled as the empty string. -/
structure DiscoveryInput where
  domain : String
  countryCodes : List String
  save : Bool
  deriving DecidableEq, Repr

/-- Result of `ui.full_scan_menu()`:
`(use_existing, domain, country_codes, save)`. -/
structure FullInput where
  useExisting : Bool
  domain : String
  countryCodes : List String
  save : Bool
  deriving DecidableEq, Repr

/-- The `commands` list of `menu_screen` (menus.py lines 30-36). -/
def commands : List String := ["v", "h", "q", "f", "d"]

/-- Surrounding whitespace removed, as the prompt library strips each
response before matching it against the choices. -/
def stripChars (l : List Char) : List Char :=
  ((l.dropWhile Char.isWhitespace).reverse.dropWhile Char.isWhitespace).reverse

/-- A response as the prompt library compares it against the choices:
stripped of surrounding whitespace and lowercased. -/
def normalizeInput (s : String) : String :=
  String.mk ((stripChars s.data).map Char.toLower)

/-- The uppercase rendering of a command, for stating that matching is
case-insensitive. -/
def upperOf (s : String) : String :=
  String.mk (s.data.map Char.toUpper)

/-- The `Prompt.ask` call of `menu_screen` (lines 40-46) with
`choices=commands`, `case_sensitive=False`, `default="h"`, following the
prompt library's semantics: an empty response returns the default; any
other response is stripped and matched case-insensitively against the
choices, returning the canonical choice on success and re-prompting
(`none`) otherwise. -/
def promptChoice (raw : String) : Option String :=
  if raw = "" then some "h"
  else commands.find? (fun c => c == normalizeInput raw)

/-- The `match user_input` dispatch of `menu_screen` (lines 48-103),
given the results the two sub-menus would produce.  Returns the value
`menu_screen` returns (`false` only on quit) together with the list of
side effects performed, in order. -/
def dispatch (cmd : String) (d : DiscoveryInput) (f : FullInput) :
    Bool × List Action :=
  if cmd = "h" then
    (true, [Action.helpScreen])
  else if cmd = "d" then
    if d.domain = "" then (true, [])
    else
      (true,
        [Action.scanDiscovery d.domain d.countryCodes d.save,
         Action.scheduleDiscovery d.domain d.countryCodes d.save,
         Action.viewExposure])
  else if cmd = "v" then
    (true, [Action.viewExposure])
  else if cmd = "f" then
    if f.domain ≠ "" then
      (true,
        [Action.scanFullDomain f.domain f.countryCodes f.save,
         Action.scheduleFull (if f.useExisting then none else some f.domain)
           (if f.useExisting then [] else f.countryCodes) f.useExisting f.save,
         Action.viewExposure])
    else if f.useExisting then
      (true,
        [Action.scanFullExisting f.useExisting f.save,
         Action.scheduleFull none [] f.useExisting f.save,
         Action.viewExposure])
    else (true, [])
  else if cmd = "q" then
    (false, [])
  else
    (true, [])

/-- One interactive event at the menu prompt: a line of text, or a
`KeyboardInterrupt` (caught by the `try`/`except` of lines 38-107). -/
inductive UserInput where
  | text (s : String)
  | interrupt
  deriving DecidableEq, Repr

/-- The `while True` loop of `menu_screen` (lines 38-109) over a finite
list of prompt events.  An interrupt is caught and makes the function
return `False`; input rejected by the prompt re-prompts; an accepted
command is dispatched and the loop breaks (returning `True`) or returns
`False` on quit.  `none` means the event list ran out with the loop still
waiting for input. -/
def menuLoop (d : DiscoveryInput) (f : FullInput) :
    List UserInput → Option (Bool × List Action)
  | [] => none
  | UserInput.interrupt :: _ => some (false, [])
  | UserInput.text s :: rest =>
    match promptChoice s with
    | none => menuLoop d f rest
    | some c => some (dispatch c d f)

/-- The warning printed by lines 25-28 when `utils.get_shodan_api()`
returns `None`. -/
def menuWarning (shodanApi : Option String) : List String :=
  if shodanApi.isNone then ["SHODAN API Key not found!"] else []

/-- `menu_screen` (lines 13-109): shows the welcome screen, possibly the
missing-API-key warning, then runs the prompt loop over the five
commands.  Modelled as the warning lines printed, the command choices
offered, and the loop outcome. -/
def menu_screen (shodanApi : Option String) (d : DiscoveryInput)
    (f : FullInput) (ins : List UserInput) :
    List String × List String × Option (Bool × List Action) :=
  (menuWarning shodanApi, commands, menuLoop d f ins)

/-! ### Aggregation engine and exposure store

The `scan` / data-model modules the menu calls are not part of the
visible source; the definitions below are modelled from the design
document's data model (identity-keyed per-kind maps), merge semantics
(set-valued fields union, scalar ties broken by source priority) and
store contract. -/

/-- Modelled from the spec: a normalized record inside one source's
fragment (§4.2) — set-valued attributes (resolved IPs / ports /
vulnerability ids) plus one optional scalar attribute (e.g. a banner).
The scan modules holding the concrete record shapes are absent from the
visible source. -/
structure FragRec where
  attrs : Finset Nat
  scalar : Option Nat
  deriving DecidableEq

/-- Modelled from the spec: a record stored in an Exposure's per-kind
map; the scalar attribute keeps the priority of the source that supplied
it, realising the documented source-priority tie-break (§4.3 step 4). -/
structure ExpRec where
  attrs : Finset Nat
  scalar : Option (Nat × Nat)
  deriving DecidableEq

/-- Modelled from the spec: a normalized fragment (§4.2, §4.3 step 3) —
one source's records, keyed by identity key (per-kind maps as in the
design notes), tagged with that source's priority in the documented
stable order (DNS, SHODAN, HackerTarget, detail enrichment). -/
structure Fragment where
  prio : Nat
  hosts : String → Option FragRec
  ips : String → Option FragRec

/-- Modelled from the spec: the Exposure aggregate root (§3) — one
domain plus per-kind entity maps keyed by identity key (hostname,
address), as prescribed by the design notes' arena-style layout. -/
@[ext]
structure Exposure where
  domain : String
  hosts : String → Option ExpRec
  ips : String → Option ExpRec

/-- Modelled from the spec: tag an incoming fragment record with its
source's priority when it first enters the Exposure. -/
def fragToExp (p : Nat) (f : FragRec) : ExpRec :=
  ⟨f.attrs, f.scalar.map (fun v => (p, v))⟩

/-- Modelled from the spec: scalar-field union-merge — a non-null value
wins over null, and between two non-null values the one from the
higher-priority (numerically smaller) source wins, the already-stored
value winning exact ties (§3 invariants, §4.3 step 4). -/
def mergeScalar : Option (Nat × Nat) → Option (Nat × Nat) → Option (Nat × Nat)
  | none, b => b
  | some a, none => some a
  | some a, some b => if b.1 < a.1 then some b else some a

/-- Modelled from the spec: union-merge of two records sharing an
identity key — set-valued fields union, scalar fields per
`mergeScalar` (§3 invariants). -/
def mergeRec (r s : ExpRec) : ExpRec :=
  ⟨r.attrs ∪ s.attrs, mergeScalar r.scalar s.scalar⟩

/-- Modelled from the spec: merge at one identity key — a record absent
on either side passes through, two records sharing the key union-merge,
never duplicating the key (§3 invariants). -/
def mergeOpt : Option ExpRec → Option ExpRec → Option ExpRec
  | none, b => b
  | some a, none => some a
  | some a, some b => some (mergeRec a b)

/-- Modelled from the spec: merge one source's per-kind fragment map
into the corresponding Exposure map (§4.3 step 4). -/
def mergeMap (p : Nat) (m : String → Option ExpRec)
    (fm : String → Option FragRec) : String → Option ExpRec :=
  fun k => mergeOpt (m k) ((fm k).map (fragToExp p))

/-- Modelled from the spec: merge a whole normalized fragment into the
working Exposure (§4.3 step 4). -/
def mergeFragment (e : Exposure) (fr : Fragment) : Exposure :=
  ⟨e.domain, mergeMap fr.prio e.hosts fr.hosts, mergeMap fr.prio e.ips fr.ips⟩

/-- Modelled from the spec: the Exposure Store (§4.4) — one record per
domain. -/
def Store : Type := String → Option Exposure

/-- Modelled from the spec: union-merge of two Exposures for the same
domain, applied map-pointwise with the §4.3 step 4 semantics. -/
def mergeExposure (e1 e2 : Exposure) : Exposure :=
  ⟨e1.domain, fun k => mergeOpt (e1.hosts k) (e2.hosts k),
    fun k => mergeOpt (e1.ips k) (e2.ips k)⟩

/-- Modelled from the spec: `upsertMerge` (§4.4) — insert the Exposure
under its domain, union-merging with the Exposure already stored for
that domain when one exists. -/
def upsertMerge (e : Exposure) (st : Store) : Store :=
  fun d =>
    if d = e.domain then
      some (match st e.domain with
            | none => e
            | some old => mergeExposure old e)
    else st d

/-- Set-valued attributes of a possibly-absent record (empty when the
record is absent). -/
def attrsOf : Option ExpRec → Finset Nat
  | none => ∅
  | some r => r.attrs

/-- Modelled from the spec: the merge phase of a full scan (§4.3 steps
1, 4, 5) — the detail-enrichment fragments gathered for the working
Exposure's Hosts/IPs are union-merged into it in deterministic order. -/
def fullScan (e : Exposure) (frags : List Fragment) : Exposure :=
  frags.foldl mergeFragment e

/-! ### Concrete inputs used by witnesses and counterexamples -/

/-- A discovery sub-menu result with a domain supplied. -/
def dIn0 : DiscoveryInput := ⟨"example.com", ["NO"], true⟩

/-- A full-scan sub-menu result supplying only a fresh domain. -/
def fIn0 : FullInput := ⟨false, "example.com", ["NO"], true⟩

/-- A full-scan sub-menu result supplying both a domain and the
use-existing flag. -/
def fBoth : FullInput := ⟨true, "example.com", ["NO"], true⟩

/-- A full-scan sub-menu result supplying neither a domain nor the
use-existing flag. -/
def fNone : FullInput := ⟨false, "", [], false⟩

/-- A small concrete Exposure: one host and one IP. -/
def expW : Exposure :=
  ⟨"example.com",
    fun k => if k = "www.example.com" then some ⟨{1}, none⟩ else none,
    fun k => if k = "93.184.216.34" then some ⟨{443}, none⟩ else none⟩

/-- A concrete fragment from the priority-0 source. -/
def fragA : Fragment :=
  ⟨0, fun _ => none,
    fun k => if k = "93.184.216.34" then some ⟨{80}, some 7⟩ else none⟩

/-- A concrete fragment from the priority-1 source, overlapping `fragA`
on the IP identity key. -/
def fragB : Fragment :=
  ⟨1, fun _ => none,
    fun k => if k = "93.184.216.34" then some ⟨{8443}, some 9⟩ else none⟩


lemma find?_beq_isSome (t : String) (l : List String) :
    (l.find? (fun c => c == t)).isSome = true ↔ t ∈ l := by
  induction l with
  | nil => simp
  | cons a l ih =>
    by_cases hat : a = t
    · subst hat
      simp [List.find?_cons_of_pos]
    · rw [List.find?_cons_of_neg]
      · simp only [List.mem_cons, ih]
        constructor
        · exact Or.inr
        · rintro (h | h)
          · exact absurd h.symm hat
          · exact h
      · simp [hat]

lemma dispatch_d (d : DiscoveryInput) (f : FullInput) :
    dispatch "d" d f =
      if d.domain = "" then (true, [])
      else
        (true,
          [Action.scanDiscovery d.domain d.countryCodes d.save,
           Action.scheduleDiscovery d.domain d.countryCodes d.save,
           Action.viewExposure]) := rfl

lemma dispatch_f (d : DiscoveryInput) (f : FullInput) :
    dispatch "f" d f =
      if f.domain ≠ "" then
        (true,
          [Action.scanFullDomain f.domain f.countryCodes f.save,
           Action.scheduleFull (if f.useExisting then none else some f.domain)
             (if f.useExisting then [] else f.countryCodes) f.useExisting f.save,
           Action.viewExposure])
      else if f.useExisting then
        (true,
          [Action.scanFullExisting f.useExisting f.save,
           Action.scheduleFull none [] f.useExisting f.save,
           Action.viewExposure])
      else (true, []) := rfl

/-- C7: The menu accepts exactly the five commands d, f, v, h, q --
a prompt response is accepted iff it is empty (defaulting to h) or
normalizes to one of them, and only those five are ever handed to the
dispatch -- and it dispatches d to the discovery scan, f to the full
scan, v to viewing the stored exposure, h to the help screen and q to
quitting. -/
theorem c7Commands :
    (∀ s : String, (promptChoice s).isSome = true ↔ (s = "" ∨ normalizeInput s ∈ commands))
    ∧ (∀ s c, promptChoice s = some c → c ∈ commands)
    ∧ (∀ d f, d.domain ≠ "" →
        Action.scanDiscovery d.domain d.countryCodes d.save ∈ (dispatch "d" d f).2)
    ∧ (∀ d f, f.domain ≠ "" →
        Action.scanFullDomain f.domain f.countryCodes f.save ∈ (dispatch "f" d f).2)
    ∧ (∀ d f, f.domain = "" → f.useExisting = true →
        Action.scanFullExisting true f.save ∈ (dispatch "f" d f).2)
    ∧ (∀ (d : DiscoveryInput) (f : FullInput), (dispatch "v" d f).2 = [Action.viewExposure])
    ∧ (∀ (d : DiscoveryInput) (f : FullInput), (dispatch "h" d f).2 = [Action.helpScreen])
    ∧ (∀ (d : DiscoveryInput) (f : FullInput), dispatch "q" d f = (false, [])) := by
  refine ⟨?_, ?_, ?_, ?_, ?_, fun d f => rfl, fun d f => rfl, fun d f => rfl⟩
  · intro s
    by_cases h : s = ""
    · simp [promptChoice, h]
    · simp only [promptChoice, if_neg h, find?_beq_isSome]
      simp [h]
  · intro s c h
    by_cases hs : s = ""
    · simp [promptChoice, hs] at h
      subst h; decide
    · simp only [promptChoice, if_neg hs] at h
      exact List.mem_of_find?_eq_some h
  · intro d f hd
    rw [dispatch_d, if_neg hd]
    simp
  · intro d f hf
    rw [dispatch_f, if_pos hf]
    simp
  · intro d f h1 h2
    rw [dispatch_f, if_neg (by simp [h1]), if_pos h2, h2]
    simp

/-- C7 witness: the discovery- and full-scan dispatch facts at the
concrete sub-menu results, and the acceptance fact at input d. -/
theorem c7Witness :
    Action.scanDiscovery "example.com" ["NO"] true ∈ (dispatch "d" dIn0 fIn0).2
    ∧ Action.scanFullDomain "example.com" ["NO"] true ∈ (dispatch "f" dIn0 fIn0).2
    ∧ ((promptChoice "d").isSome = true ↔ ("d" = "" ∨ normalizeInput "d" ∈ commands)) :=
  ⟨c7Commands.2.2.1 dIn0 fIn0 (by decide),
   c7Commands.2.2.2.1 dIn0 fIn0 (by decide),
   c7Commands.1 "d"⟩


/-- C8: `menu_screen` returns False exactly when the user quits or a
KeyboardInterrupt occurs at the menu loop (the interrupt is caught and
produces the False return value, no exception escapes): an interrupt
event yields False at once, an accepted command is dispatched, and a
dispatched command yields False iff it is q. -/
theorem c8QuitAndInterrupt :
    (∀ (d : DiscoveryInput) (f : FullInput) rest,
        menuLoop d f (UserInput.interrupt :: rest) = some (false, []))
    ∧ (∀ (d : DiscoveryInput) (f : FullInput) s c rest, promptChoice s = some c →
        menuLoop d f (UserInput.text s :: rest) = some (dispatch c d f))
    ∧ (∀ c (d : DiscoveryInput) (f : FullInput), c ∈ commands →
        ((dispatch c d f).1 = false ↔ c = "q")) := by
  refine ⟨fun d f rest => rfl, ?_, ?_⟩
  · intro d f s c rest h
    simp [menuLoop, h]
  · intro c d f hc
    fin_cases hc
    · simp [dispatch]
    · simp [dispatch]
    · simp [dispatch]
    · rw [dispatch_f]
      split_ifs <;> simp
    · rw [dispatch_d]
      split_ifs <;> simp

/-- C8 witness: the interrupt, dispatch and quit facts at concrete
inputs. -/
theorem c8Witness :
    menuLoop dIn0 fIn0 [UserInput.interrupt] = some (false, [])
    ∧ menuLoop dIn0 fIn0 [UserInput.text "q"] = some (dispatch "q" dIn0 fIn0)
    ∧ ((dispatch "q" dIn0 fIn0).1 = false ↔ "q" = "q") :=
  ⟨c8QuitAndInterrupt.1 dIn0 fIn0 [],
   c8QuitAndInterrupt.2.1 dIn0 fIn0 "q" "q" [] (by decide),
   c8QuitAndInterrupt.2.2 "q" dIn0 fIn0 (by decide)⟩

/-- C9: when the discovery sub-menu yields an empty (falsy) domain,
the d command performs no scan, no schedule snapshot and no exposure
view, and `menu_screen` returns True. -/
theorem c9EmptyDiscoveryDomain :
    ∀ (cc : List String) (save : Bool) (f : FullInput),
      dispatch "d" ⟨"", cc, save⟩ f = (true, []) := by
  intro cc save f
  rfl

/-- C6: with the SHODAN API key absent, `menu_screen` prints the
warning line and otherwise behaves exactly as with a key present: the
same five commands are offered and every input stream produces the same
dispatch outcome -- no hard error. -/
theorem c6MissingKeySoft :
    ∀ (k : String) (d : DiscoveryInput) (f : FullInput) (ins : List UserInput),
      (menu_screen none d f ins).1 = ["SHODAN API Key not found!"]
      ∧ (menu_screen none d f ins).2 = (menu_screen (some k) d f ins).2 := by
  intro k d f ins
  exact ⟨rfl, rfl⟩

/-- C10: menu command matching is case-insensitive -- the uppercase
rendering of each command is accepted and yields the same canonical
choice as the lowercase one -- and an empty input defaults to the help
command h. -/
theorem c10CaseInsensitiveDefault :
    (∀ c, c ∈ commands →
      (promptChoice (upperOf c) = promptChoice c ∧ promptChoice c = some c))
    ∧ promptChoice "" = some "h" := by
  constructor
  · decide
  · decide

/-- C10 witness: D is accepted and dispatched identically to d. -/
theorem c10Witness :
    promptChoice (upperOf "d") = promptChoice "d" ∧ promptChoice "d" = some "d" :=
  c10CaseInsensitiveDefault.1 "d" (by decide)

/-- C1 counterexample: the claim fails on the code -- when the
full-scan sub-menu supplies both a domain and the use-existing flag,
`scan.full` IS called (with the domain), and when it supplies neither,
the command completes quietly without producing any error value. -/
theorem c1Counterexample :
    Action.scanFullDomain "example.com" ["NO"] true ∈ (dispatch "f" dIn0 fBoth).2
    ∧ dispatch "f" dIn0 fNone = (true, []) := by
  decide

/-- C1 (amended): in `menu_screen`'s full-scan dispatch a non-empty
domain takes precedence -- `scan.full(domain=...)` runs first in the
action list even if use-existing is also set; with only the
use-existing flag, `scan.full(use_existing=...)` runs; with neither,
the scan does not run and no error value is produced (the menu just
returns True). -/
theorem c1Amended :
    ∀ (d : DiscoveryInput) (f : FullInput),
      (f.domain ≠ "" → (dispatch "f" d f).2.head? =
        some (Action.scanFullDomain f.domain f.countryCodes f.save))
      ∧ (f.domain = "" → f.useExisting = true → (dispatch "f" d f).2.head? =
        some (Action.scanFullExisting true f.save))
      ∧ (f.domain = "" → f.useExisting = false → dispatch "f" d f = (true, [])) := by
  intro d f
  refine ⟨?_, ?_, ?_⟩
  · intro h
    rw [dispatch_f, if_pos h]
    rfl
  · intro h1 h2
    rw [dispatch_f, if_neg (by simp [h1]), if_pos h2, h2]
    rfl
  · intro h1 h2
    rw [dispatch_f, if_neg (by simp [h1]), if_neg (by simp [h2])]

/-- C1 witness: the fresh-domain and neither-supplied branches at
concrete sub-menu results. -/
theorem c1Witness :
    (dispatch "f" dIn0 fIn0).2.head? =
      some (Action.scanFullDomain "example.com" ["NO"] true)
    ∧ dispatch "f" dIn0 fNone = (true, []) :=
  ⟨(c1Amended dIn0 fIn0).1 (by decide), (c1Amended dIn0 fNone).2.2 (by decide) (by decide)⟩

/-- C5 counterexample: the claim fails on the code -- with both a
domain and the use-existing flag supplied, the scan runs with the
domain, yet the schedule snapshot records no domain and an empty
country-code list, so it does not carry the values the scan was run
with. -/
theorem c5Counterexample :
    Action.scanFullDomain "example.com" ["NO"] true ∈ (dispatch "f" dIn0 fBoth).2
    ∧ Action.scheduleFull (some "example.com") ["NO"] true true ∉ (dispatch "f" dIn0 fBoth).2
    ∧ Action.scheduleFull none [] true true ∈ (dispatch "f" dIn0 fBoth).2 := by
  decide

/-- C5 (amended): whenever at most one of domain / use-existing is
supplied (the configurations the design allows), the schedule snapshot
handed to the scheduling collaborator records the scan type with
exactly the domain, country codes and save flag the scan was run with;
in particular a full scan reusing the existing exposure snapshots no
domain and an empty country-code list. -/
theorem c5Amended :
    ∀ (d : DiscoveryInput) (f : FullInput),
      (d.domain ≠ "" → (dispatch "d" d f).2 =
        [Action.scanDiscovery d.domain d.countryCodes d.save,
         Action.scheduleDiscovery d.domain d.countryCodes d.save,
         Action.viewExposure])
      ∧ (f.domain ≠ "" → f.useExisting = false → (dispatch "f" d f).2 =
        [Action.scanFullDomain f.domain f.countryCodes f.save,
         Action.scheduleFull (some f.domain) f.countryCodes false f.save,
         Action.viewExposure])
      ∧ (f.domain = "" → f.useExisting = true → (dispatch "f" d f).2 =
        [Action.scanFullExisting true f.save,
         Action.scheduleFull none [] true f.save,
         Action.viewExposure]) := by
  intro d f
  refine ⟨?_, ?_, ?_⟩
  · intro h
    rw [dispatch_d, if_neg h]
  · intro h1 h2
    rw [dispatch_f, if_pos h1, h2]
    simp
  · intro h1 h2
    rw [dispatch_f, if_neg (by simp [h1]), if_pos h2, h2]

/-- C5 witness: the discovery and fresh-domain full-scan snapshots at
concrete sub-menu results. -/
theorem c5Witness :
    (dispatch "d" dIn0 fIn0).2 =
      [Action.scanDiscovery "example.com" ["NO"] true,
       Action.scheduleDiscovery "example.com" ["NO"] true,
       Action.viewExposure]
    ∧ (dispatch "f" dIn0 fIn0).2 =
      [Action.scanFullDomain "example.com" ["NO"] true,
       Action.scheduleFull (some "example.com") ["NO"] false true,
       Action.viewExposure] :=
  ⟨(c5Amended dIn0 fIn0).1 (by decide),
   (c5Amended dIn0 fIn0).2.1 (by decide) (by decide)⟩


lemma mergeScalar_none_right (a : Option (Nat × Nat)) : mergeScalar a none = a := by
  cases a <;> rfl

lemma mergeScalar_swap (a : Option (Nat × Nat)) (b c : Nat × Nat) (h : b.1 ≠ c.1) :
    mergeScalar (mergeScalar a (some b)) (some c)
      = mergeScalar (mergeScalar a (some c)) (some b) := by
  rcases a with _ | a
  · simp only [mergeScalar]
    split_ifs <;> first | rfl | (exfalso; omega)
  · simp only [mergeScalar]
    split_ifs <;> simp only [mergeScalar] <;> split_ifs <;>
      first | rfl | (exfalso; omega)

lemma mergeScalar_mapped_swap (x : Option (Nat × Nat)) (p q : Nat) (h : p ≠ q)
    (yb zc : Option Nat) :
    mergeScalar (mergeScalar x (yb.map fun v => (p, v))) (zc.map fun v => (q, v))
      = mergeScalar (mergeScalar x (zc.map fun v => (q, v))) (yb.map fun v => (p, v)) := by
  rcases yb with _ | v
  · rcases zc with _ | w <;>
      simp only [Option.map_none', Option.map_some', mergeScalar_none_right]
  · rcases zc with _ | w
    · simp only [Option.map_none', Option.map_some', mergeScalar_none_right]
    · simp only [Option.map_some']
      exact mergeScalar_swap x (p, v) (q, w) h

lemma mergeRec_swap (a : ExpRec) (p q : Nat) (h : p ≠ q) (b c : FragRec) :
    mergeRec (mergeRec a (fragToExp p b)) (fragToExp q c)
      = mergeRec (mergeRec a (fragToExp q c)) (fragToExp p b) := by
  simp only [mergeRec, fragToExp]
  congr 1
  · exact Finset.union_right_comm _ _ _
  · exact mergeScalar_mapped_swap a.scalar p q h b.scalar c.scalar

lemma mergeRec_fragComm (p q : Nat) (h : p ≠ q) (b c : FragRec) :
    mergeRec (fragToExp p b) (fragToExp q c)
      = mergeRec (fragToExp q c) (fragToExp p b) := by
  simp only [mergeRec, fragToExp]
  congr 1
  · exact Finset.union_comm _ _
  · have hs := mergeScalar_mapped_swap none p q h b.scalar c.scalar
    simpa only [mergeScalar] using hs

lemma mergeOpt_none_right (a : Option ExpRec) : mergeOpt a none = a := by
  cases a <;> rfl

lemma mergeOpt_mapped_swap (a : Option ExpRec) (p q : Nat) (h : p ≠ q)
    (b c : Option FragRec) :
    mergeOpt (mergeOpt a (b.map (fragToExp p))) (c.map (fragToExp q))
      = mergeOpt (mergeOpt a (c.map (fragToExp q))) (b.map (fragToExp p)) := by
  rcases b with _ | b
  · rcases c with _ | c <;> simp [mergeOpt_none_right]
  · rcases c with _ | c
    · simp [mergeOpt_none_right]
    · rcases a with _ | a
      · simp only [Option.map_some', mergeOpt]
        exact congrArg some (mergeRec_fragComm p q h b c)
      · simp only [Option.map_some', mergeOpt]
        exact congrArg some (mergeRec_swap a p q h b c)

lemma mergeMap_swap (p q : Nat) (h : p ≠ q) (m : String → Option ExpRec)
    (fm gm : String → Option FragRec) :
    mergeMap q (mergeMap p m fm) gm = mergeMap p (mergeMap q m gm) fm := by
  funext k
  exact mergeOpt_mapped_swap (m k) p q h (fm k) (gm k)

/-- C2: merging fragment A then fragment B with overlapping identity
keys produces the same Exposure as merging B then A, for fragments from
distinct sources in the documented priority order: set-valued fields
union commutatively, the identity-keyed maps never duplicate a key, and
scalar ties are broken by source priority, not arrival order. -/
theorem c2MergeCommutes (e : Exposure) (fr1 fr2 : Fragment)
    (h : fr1.prio ≠ fr2.prio) :
    mergeFragment (mergeFragment e fr1) fr2
      = mergeFragment (mergeFragment e fr2) fr1 := by
  refine Exposure.ext rfl (funext fun k => ?_) (funext fun k => ?_)
  · exact mergeOpt_mapped_swap (e.hosts k) fr1.prio fr2.prio h (fr1.hosts k) (fr2.hosts k)
  · exact mergeOpt_mapped_swap (e.ips k) fr1.prio fr2.prio h (fr1.ips k) (fr2.ips k)

/-- C2 witness: the two concrete fragments overlapping on one IP key
merge into the concrete Exposure the same way in either order. -/
theorem c2Witness :
    fragA.prio ≠ fragB.prio
    ∧ mergeFragment (mergeFragment expW fragA) fragB
        = mergeFragment (mergeFragment expW fragB) fragA :=
  ⟨by decide, c2MergeCommutes expW fragA fragB (by decide)⟩

lemma mergeScalar_self (s : Option (Nat × Nat)) : mergeScalar s s = s := by
  rcases s with _ | a
  · rfl
  · simp only [mergeScalar]
    split_ifs <;> rfl

lemma mergeScalar_right_idem (s t : Option (Nat × Nat)) :
    mergeScalar (mergeScalar s t) t = mergeScalar s t := by
  rcases s with _ | a
  · rcases t with _ | b
    · rfl
    · simp only [mergeScalar]
      split_ifs <;> rfl
  · rcases t with _ | b
    · rfl
    · simp only [mergeScalar]
      split_ifs <;> simp only [mergeScalar] <;> split_ifs <;> rfl

lemma mergeRec_self (x : ExpRec) : mergeRec x x = x := by
  simp only [mergeRec]
  rw [Finset.union_self, mergeScalar_self]

lemma mergeRec_right_idem (x y : ExpRec) : mergeRec (mergeRec x y) y = mergeRec x y := by
  simp only [mergeRec]
  congr 1
  · rw [Finset.union_assoc, Finset.union_self]
  · exact mergeScalar_right_idem x.scalar y.scalar

lemma mergeOpt_self (a : Option ExpRec) : mergeOpt a a = a := by
  rcases a with _ | x
  · rfl
  · exact congrArg some (mergeRec_self x)

lemma mergeOpt_right_idem (a b : Option ExpRec) :
    mergeOpt (mergeOpt a b) b = mergeOpt a b := by
  rcases a with _ | x <;> rcases b with _ | y
  · rfl
  · exact congrArg some (mergeRec_self y)
  · rfl
  · exact congrArg some (mergeRec_right_idem x y)

lemma mergeExposure_self (e : Exposure) : mergeExposure e e = e := by
  refine Exposure.ext rfl (funext fun k => ?_) (funext fun k => ?_)
  · exact mergeOpt_self (e.hosts k)
  · exact mergeOpt_self (e.ips k)

lemma mergeExposure_right_idem (o e : Exposure) :
    mergeExposure (mergeExposure o e) e = mergeExposure o e := by
  refine Exposure.ext rfl (funext fun k => ?_) (funext fun k => ?_)
  · exact mergeOpt_right_idem (o.hosts k) (e.hosts k)
  · exact mergeOpt_right_idem (o.ips k) (e.ips k)

/-- C3: `upsertMerge` is idempotent -- upserting the same Exposure
twice leaves the store in exactly the state of upserting it once,
because the store applies the aggregation engine's union-merge when an
Exposure for the domain already exists. -/
theorem c3UpsertMergeIdem (e : Exposure) (st : Store) :
    upsertMerge e (upsertMerge e st) = upsertMerge e st := by
  funext d
  by_cases hd : d = e.domain
  · rcases hst : st e.domain with _ | old
    · simp [upsertMerge, hd, hst, mergeExposure_self]
    · simp [upsertMerge, hd, hst, mergeExposure_right_idem]
  · simp [upsertMerge, hd]

lemma mergeOpt_isSome (a b : Option ExpRec) (h : a.isSome = true) :
    (mergeOpt a b).isSome = true := by
  rcases a with _ | x
  · simp at h
  · rcases b with _ | y <;> rfl

lemma attrsOf_mergeOpt (a b : Option ExpRec) : attrsOf a ⊆ attrsOf (mergeOpt a b) := by
  rcases a with _ | x
  · simp [attrsOf]
  · rcases b with _ | y
    · exact Finset.Subset.refl _
    · simp only [mergeOpt, attrsOf, mergeRec]
      exact Finset.subset_union_left

/-- C4: a full scan never deletes a known asset -- every Host and IP
present before the merge phase is still present afterwards, and its
set-valued attributes (ports, vulnerabilities, resolved IPs) only
grow. -/
theorem c4FullScanMonotone (e : Exposure) (frags : List Fragment) (k : String) :
    ((e.hosts k).isSome = true → ((fullScan e frags).hosts k).isSome = true)
    ∧ attrsOf (e.hosts k) ⊆ attrsOf ((fullScan e frags).hosts k)
    ∧ ((e.ips k).isSome = true → ((fullScan e frags).ips k).isSome = true)
    ∧ attrsOf (e.ips k) ⊆ attrsOf ((fullScan e frags).ips k) := by
  induction frags generalizing e with
  | nil => exact ⟨id, Finset.Subset.refl _, id, Finset.Subset.refl _⟩
  | cons fr rest ih =>
    have step := ih (mergeFragment e fr)
    have hMain : fullScan e (fr :: rest) = fullScan (mergeFragment e fr) rest := rfl
    rw [hMain]
    exact ⟨fun h => step.1 (mergeOpt_isSome _ _ h),
           Finset.Subset.trans (attrsOf_mergeOpt _ _) step.2.1,
           fun h => step.2.2.1 (mergeOpt_isSome _ _ h),
           Finset.Subset.trans (attrsOf_mergeOpt _ _) step.2.2.2⟩

/-- C4 witness: the concrete host survives a full scan that enriches
the concrete Exposure with two fragments. -/
theorem c4Witness :
    (expW.hosts "www.example.com").isSome = true
    ∧ ((fullScan expW [fragA, fragB]).hosts "www.example.com").isSome = true :=
  ⟨by decide, (c4FullScanMonotone expW [fragA, fragB] "www.example.com").1 (by decide)⟩

end TEA
